import Mathlib

/-!
Shallow embedding of the wire-encoding layer of `minecraft/protocol/writer.go`
(gophertunnel, protocol 408).  Writer methods append bytes to a growable
buffer; we model each method as a pure function returning the list of bytes
it appends (every element is a byte value `< 256`).  Machine integers are
modelled as `Int`/`Nat` with explicit reduction modulo `2^w` at the points
where the Go code converts or wraps.
-/

namespace GT408

/-- Unsigned LEB128 loop shared by `Writer.Varuint32`, `Writer.Varuint64` and
the tails of `Writer.Varint32` / `Writer.Varint64`: while `u >= 0x80` emit
`byte(u) | 0x80` and shift `u` right by 7 bits, then emit `byte(u)`.
`fuel` only bounds the recursion; it is kept at least `u`, which is always
enough iterations, so the fuel never runs out on the loop source. -/
def varuintAux : Nat → Nat → List Nat
  | 0, u => [u % 256]
  | fuel + 1, u =>
    if 0x80 ≤ u then (u % 256 ||| 0x80) :: varuintAux fuel (u / 0x80)
    else [u % 256]

/-- Bytes appended by `Writer.Varuint32` / `Writer.Varuint64` for the
unsigned value `u` (the loop body is identical for both widths). -/
def varuintBytes (u : Nat) : List Nat :=
  varuintAux u u

/-- Two.s-complement reinterpretation of an integer as a signed 32-bit
value, as performed by a Go `int32(...)` conversion. -/
def toInt32 (n : Int) : Int :=
  (n + 2 ^ 31) % 2 ^ 32 - 2 ^ 31

/-- Bytes appended by `Writer.Varint32` for `u`: `ux := uint32(u) << 1`
(wrapping), complemented when `u < 0`, then the LEB128 loop. -/
def varint32Bytes (u : Int) : List Nat :=
  if u < 0 then
    varuintBytes (2 ^ 32 - 1 - (u % 2 ^ 32).toNat * 2 % 2 ^ 32)
  else
    varuintBytes ((u % 2 ^ 32).toNat * 2 % 2 ^ 32)

/-- Bytes appended by `Writer.Varint64` for `u`: `ux := uint64(u) << 1`
(wrapping), complemented when `u < 0`, then the LEB128 loop. -/
def varint64Bytes (u : Int) : List Nat :=
  if u < 0 then
    varuintBytes (2 ^ 64 - 1 - (u % 2 ^ 64).toNat * 2 % 2 ^ 64)
  else
    varuintBytes ((u % 2 ^ 64).toNat * 2 % 2 ^ 64)

/-- Bytes appended by `Writer.Uint8`. -/
def uint8Bytes (v : Nat) : List Nat :=
  [v % 256]

/-- Modelled from the spec: the body of `Writer.Int16` is not under `src/`
(only its call sites in `Writer.Item` and `Writer.EntityMetadata` are).
The spec lists `Int16` among the fixed-width numerics; we model it as the
two bytes of the 16-bit two.s-complement value, low byte first.  The two
values the claims exercise, `-1` (`0xFFFF`) and `0` (`0x0000`), have the
same bytes under either byte order. -/
def int16Bytes (v : Int) : List Nat :=
  [((v % 2 ^ 16).toNat) % 256, ((v % 2 ^ 16).toNat) / 256]

/-- Modelled from the spec: the body of `Writer.Float32` is not under
`src/`.  We carry 32-bit float values by their IEEE-754 bit pattern and
model the writer as the four bytes of that pattern, low byte first. -/
def float32Bytes (bits : Nat) : List Nat :=
  [bits % 256, bits / 2 ^ 8 % 256, bits / 2 ^ 16 % 256, bits / 2 ^ 24 % 256]

/-- Bytes appended by `Writer.String`: `uint32` byte length as an unsigned
varint, then the raw bytes.  Protocol strings are modelled as their byte
sequences. -/
def stringBytes (s : List Nat) : List Nat :=
  varuintBytes (s.length % 2 ^ 32) ++ s

/-- A block position, Go type `BlockPos` (`[3]int32`); the three components
are `x[0]`, `x[1]`, `x[2]`. -/
structure BlockPos where
  x : Int
  y : Int
  z : Int
deriving DecidableEq

/-- Bytes appended by `Writer.BlockPos`: three signed varints. -/
def blockPosBytes (p : BlockPos) : List Nat :=
  varint32Bytes p.x ++ varint32Bytes p.y ++ varint32Bytes p.z

/-- Bytes appended by `Writer.UBlockPos`: `x[0]` as a signed varint, then
`y := uint32(x[1])` as an unsigned varint, then `x[2]` as a signed varint. -/
def uBlockPosBytes (p : BlockPos) : List Nat :=
  varint32Bytes p.x ++ varuintBytes ((p.y % 2 ^ 32).toNat) ++ varint32Bytes p.z

/-- Bytes appended by `Writer.UUID`: the canonical 16 bytes with the two
8-byte halves swapped (`append(x[8:], x[:8]...)`) and the result reversed
in place. -/
def uuidBytes (u : List Nat) : List Nat :=
  (u.drop 8 ++ u.take 8).reverse

/-- Model of the heap behaviour of `Writer.UUID` on the caller.s array.
Go semantics of `b := append(x[8:], x[:8]...)`: the slice `x[8:]` of the
16-byte array has length 8 and capacity `len(x) - 8`; when the appended
total exceeds that capacity, `append` allocates a fresh backing array and
the in-place reverse touches only the copy, otherwise it writes into the
original backing array and the reverse mutates it.  The result pairs the
bytes written to the wire with the caller.s array after the call. -/
def uuidWriteGo (u : List Nat) : List Nat × List Nat :=
  let tail := u.drop 8
  let head := u.take 8
  if u.length - 8 < tail.length + head.length then
    ((tail ++ head).reverse, u)
  else
    let backing := u.take (8 + tail.length) ++ head ++
      u.drop (8 + tail.length + head.length)
    let b := ((backing.drop 8).take (tail.length + head.length)).reverse
    (b, backing.take 8 ++ b ++ backing.drop (8 + b.length))

/-- Endianness selector of the external tree-encoder (`nbt.Encoding`); the
constants themselves live outside `src/`.  Modelled from the spec, which
names at least a network little-endian variant. -/
inductive NBTEncoding where
  | networkLittleEndian
  | littleEndian
  | bigEndian
deriving DecidableEq

/-- A compound record handed to the external tree-encoder: a mapping from
string keys (byte sequences) to abstract payloads.  Only its entry count is
inspected by this layer; serialisation is delegated to the external encoder. -/
abbrev NBTMap := List (List Nat × Nat)

/-- An external tree-encoder, `encode(record, endianness) -> bytes`,
treated as an abstract collaborator: every theorem quantifies over it. -/
abbrev NBTEncoder := NBTEncoding → NBTMap → List Nat

/-- An item stack as consumed by `Writer.Item`.  The struct declaration is
outside `src/`; field names and types follow the spec.s data model
(`NetworkID: int32`, `MetadataValue: int`, `Count: int`, optional nested
record, two ordered string sequences), with strings as byte sequences. -/
structure ItemStack where
  NetworkID : Int
  MetadataValue : Int
  Count : Int
  NBTData : NBTMap
  CanBePlacedOn : List (List Nat)
  CanBreak : List (List Nat)

/-- The aux word of `Writer.Item`:
`aux := int32(x.MetadataValue<<8) | int32(x.Count)` — both operands are
reduced to 32 bits and combined with bitwise or on their unsigned
representations. -/
def auxValue (s : ItemStack) : Int :=
  toInt32 (Int.ofNat (Nat.lor ((s.MetadataValue * 2 ^ 8) % 2 ^ 32).toNat
    ((s.Count % 2 ^ 32).toNat)))

/-- The fixed legacy shield identifier of `Writer.Item` (`const shieldID = 513`). -/
def shieldID : Int := 513

/-- Bytes appended by `Writer.Item` for the stack `s`, given the external
tree-encoder `enc`.  Mirrors the source order: signed varint `NetworkID`;
stop if zero; signed varint aux word; user-data marker (`-1`, version byte
`1` and the encoded record when `len(NBTData) != 0`, else `0`); the
`CanBePlacedOn` count (`int32(len(...))`, written with `Varint32`) and its
strings; the `CanBreak` count and strings; and the blocking-tick varint64
`0` exactly when `NetworkID == shieldID`. -/
def itemBytes (enc : NBTEncoder) (s : ItemStack) : List Nat :=
  varint32Bytes s.NetworkID ++
    if s.NetworkID = 0 then [] else
      varint32Bytes (auxValue s) ++
      (if s.NBTData.length ≠ 0 then
        int16Bytes (-1) ++ uint8Bytes 1 ++ enc NBTEncoding.networkLittleEndian s.NBTData
      else
        int16Bytes 0) ++
      varint32Bytes (toInt32 s.CanBePlacedOn.length) ++
      (s.CanBePlacedOn.map stringBytes).flatten ++
      varint32Bytes (toInt32 s.CanBreak.length) ++
      (s.CanBreak.map stringBytes).flatten ++
      (if s.NetworkID = shieldID then varint64Bytes 0 else [])

/-- Head of the non-empty item encoding: identifier, aux word and
user-data block, i.e. everything `Writer.Item` writes before the two
string sequences. -/
def itemHeadBytes (enc : NBTEncoder) (s : ItemStack) : List Nat :=
  varint32Bytes s.NetworkID ++
    varint32Bytes (auxValue s) ++
    (if s.NBTData.length ≠ 0 then
      int16Bytes (-1) ++ uint8Bytes 1 ++ enc NBTEncoding.networkLittleEndian s.NBTData
    else
      int16Bytes 0)

/-- Everything `Writer.Item` writes for a non-empty stack up to and
including the `CanBreak` sequence — the whole encoding except the
shield-only trailing blocking-tick field. -/
def itemBodyBytes (enc : NBTEncoder) (s : ItemStack) : List Nat :=
  itemHeadBytes enc s ++
    varint32Bytes (toInt32 s.CanBePlacedOn.length) ++
    (s.CanBePlacedOn.map stringBytes).flatten ++
    varint32Bytes (toInt32 s.CanBreak.length) ++
    (s.CanBreak.map stringBytes).flatten

/-- An item encoder following the words of the spec sentences behind claim
C1: identical to `itemBytes` except that each of the two sequence counts is
written as the unsigned LEB128 varint of the element count.  Kept separate
so it can be compared with the source-derived `itemBytes`. -/
def itemBytesUnsignedLens (enc : NBTEncoder) (s : ItemStack) : List Nat :=
  varint32Bytes s.NetworkID ++
    if s.NetworkID = 0 then [] else
      varint32Bytes (auxValue s) ++
      (if s.NBTData.length ≠ 0 then
        int16Bytes (-1) ++ uint8Bytes 1 ++ enc NBTEncoding.networkLittleEndian s.NBTData
      else
        int16Bytes 0) ++
      varuintBytes s.CanBePlacedOn.length ++
      (s.CanBePlacedOn.map stringBytes).flatten ++
      varuintBytes s.CanBreak.length ++
      (s.CanBreak.map stringBytes).flatten ++
      (if s.NetworkID = shieldID then varint64Bytes 0 else [])

/-- A concrete tree-encoder used to instantiate universally quantified
theorems on closed inputs. -/
def nbtEncZero : NBTEncoder := fun _ _ => []

/-- Modelled from the spec: the nine entity-metadata wire type tags
(`entityDataByte`, ..., `entityDataVec3`) are package constants outside
`src/`; the spec fixes only that each variant has an unsigned varint tag.
The values below are the conventional consecutive tags; no claim depends
on the particular numbers. -/
def entityDataByte : Nat := 0

/-- Wire type tag of the `int16` metadata variant. -/
def entityDataInt16 : Nat := 1

/-- Wire type tag of the `int32` metadata variant. -/
def entityDataInt32 : Nat := 2

/-- Wire type tag of the `float32` metadata variant. -/
def entityDataFloat32 : Nat := 3

/-- Wire type tag of the `string` metadata variant. -/
def entityDataString : Nat := 4

/-- Wire type tag of the compound-record metadata variant. -/
def entityDataCompoundTag : Nat := 5

/-- Wire type tag of the block-position metadata variant. -/
def entityDataBlockPos : Nat := 6

/-- Wire type tag of the `int64` metadata variant. -/
def entityDataInt64 : Nat := 7

/-- Wire type tag of the 3-float-vector metadata variant. -/
def entityDataVec3 : Nat := 8

/-- Dynamic value of one entity-metadata entry (`interface{}` in the Go
map).  The nine known variants mirror the cases of the type switch in
`Writer.EntityMetadata`; `unknownV` stands for a value of any dynamic type
outside those nine, carrying its type name. -/
inductive EntityDataValue where
  | byteV (v : Nat)
  | int16V (v : Int)
  | int32V (v : Int)
  | float32V (bits : Nat)
  | stringV (s : List Nat)
  | compoundV (m : NBTMap)
  | blockPosV (p : BlockPos)
  | int64V (v : Int)
  | vec3V (a b c : Nat)
  | unknownV (typeName : List Nat)

/-- Bytes appended for one entry value of `Writer.EntityMetadata`: the
unsigned varint type tag followed by the type-specific payload, or — in the
`default` case of the type switch — the `UnknownEnumOption` panic, modelled
as an `Except.error` carrying the offending dynamic type name. -/
def entityEntryBytes (enc : NBTEncoder) :
    EntityDataValue → Except (List Nat) (List Nat)
  | .byteV v => .ok (varuintBytes entityDataByte ++ uint8Bytes v)
  | .int16V v => .ok (varuintBytes entityDataInt16 ++ int16Bytes v)
  | .int32V v => .ok (varuintBytes entityDataInt32 ++ varint32Bytes v)
  | .float32V bits => .ok (varuintBytes entityDataFloat32 ++ float32Bytes bits)
  | .stringV s => .ok (varuintBytes entityDataString ++ stringBytes s)
  | .compoundV m =>
    .ok (varuintBytes entityDataCompoundTag ++ enc NBTEncoding.networkLittleEndian m)
  | .blockPosV p => .ok (varuintBytes entityDataBlockPos ++ blockPosBytes p)
  | .int64V v => .ok (varuintBytes entityDataInt64 ++ varint64Bytes v)
  | .vec3V a b c =>
    .ok (varuintBytes entityDataVec3 ++ float32Bytes a ++ float32Bytes b ++ float32Bytes c)
  | .unknownV typeName => .error typeName

/-- One iteration of the `Writer.EntityMetadata` loop: append the unsigned
varint `uint32` key and the tagged value bytes to the accumulated output,
or abort on the panic of the `default` case. -/
def entityFoldStep (enc : NBTEncoder) (acc : List Nat)
    (kv : Nat × EntityDataValue) : Except (List Nat) (List Nat) := do
  let payload ← entityEntryBytes enc kv.2
  pure (acc ++ varuintBytes (kv.1 % 2 ^ 32) ++ payload)

/-- Bytes appended by `Writer.EntityMetadata` for the map `entries` (the Go
map is modelled as its iteration sequence of key-value pairs, in arbitrary
order): the unsigned varint `uint32` entry count, then per entry the
unsigned varint `uint32` key and the tagged value.  A panic raised on an
unknown dynamic type aborts the whole encode, modelled by `Except`. -/
def entityMetadataBytes (enc : NBTEncoder)
    (entries : List (Nat × EntityDataValue)) : Except (List Nat) (List Nat) :=
  entries.foldlM (entityFoldStep enc) (varuintBytes (entries.length % 2 ^ 32))

/-- Tail of the non-empty item encoding: the two length-prefixed string
sequences and the shield-only trailing tick, i.e. everything `Writer.Item`
writes after the user-data block. -/
def itemTailBytes (s : ItemStack) : List Nat :=
  varint32Bytes (toInt32 s.CanBePlacedOn.length) ++
    (s.CanBePlacedOn.map stringBytes).flatten ++
    varint32Bytes (toInt32 s.CanBreak.length) ++
    (s.CanBreak.map stringBytes).flatten ++
    (if s.NetworkID = shieldID then varint64Bytes 0 else [])

/-- The zig-zag map on signed integers as the spec words it: left-shift the
value one bit and bitwise-complement the result when the value was
negative.  In numbers: a non-negative `u` maps to `2 * u` and a negative
`u` to `2 * |u| - 1`. -/
def zigzag (u : Int) : Nat :=
  if u < 0 then 2 * u.natAbs - 1 else 2 * u.toNat

/-- C2: an item stack with `NetworkID = 0` encodes to exactly the one-byte
signed-varint encoding of `0`, the byte `0x00`, and nothing else — no aux
word, no nested-record marker, no string sequences, no trailing field. -/
theorem item_air_single_zero_byte (enc : NBTEncoder) (s : ItemStack)
    (h : s.NetworkID = 0) :
    itemBytes enc s = varint32Bytes 0 ∧ itemBytes enc s = [0] := by
  constructor
  · simp [itemBytes, h]
  · simp [itemBytes, h]
    decide

/-- Witness for `item_air_single_zero_byte` at the concrete empty slot. -/
theorem item_air_single_zero_byte_inst :
    itemBytes nbtEncZero ⟨0, 5, 7, [([97], 0)], [[98]], [[99]]⟩ = varint32Bytes 0 ∧
      itemBytes nbtEncZero ⟨0, 5, 7, [([97], 0)], [[98]], [[99]]⟩ = [0] :=
  item_air_single_zero_byte nbtEncZero ⟨0, 5, 7, [([97], 0)], [[98]], [[99]]⟩ rfl

/-- C3: a stack whose `NetworkID` is the shield identifier `513` always
carries one extra signed varint64 blocking-tick field right after the
`CanBreak` sequence, even though the tick value is zero, while every other
non-zero `NetworkID` ends with the `CanBreak` sequence and no trailing
field. -/
theorem item_shield_tick_presence (enc : NBTEncoder) (s : ItemStack) :
    (s.NetworkID = shieldID →
      itemBytes enc s = itemBodyBytes enc s ++ varint64Bytes 0) ∧
    (s.NetworkID ≠ 0 → s.NetworkID ≠ shieldID →
      itemBytes enc s = itemBodyBytes enc s) := by
  constructor
  · intro h
    have hs0 : ¬(shieldID = (0 : Int)) := by decide
    simp [itemBytes, itemBodyBytes, itemHeadBytes, h, hs0, List.append_assoc]
  · intro h0 h513
    simp [itemBytes, itemBodyBytes, itemHeadBytes, h0, h513, List.append_assoc]

/-- Witness for `item_shield_tick_presence` at a concrete shield stack and
a concrete non-shield stack. -/
theorem item_shield_tick_presence_inst :
    itemBytes nbtEncZero ⟨513, 0, 1, [], [], []⟩ =
      itemBodyBytes nbtEncZero ⟨513, 0, 1, [], [], []⟩ ++ varint64Bytes 0 ∧
    itemBytes nbtEncZero ⟨7, 0, 1, [], [], []⟩ =
      itemBodyBytes nbtEncZero ⟨7, 0, 1, [], [], []⟩ :=
  ⟨(item_shield_tick_presence nbtEncZero ⟨513, 0, 1, [], [], []⟩).1 rfl,
    (item_shield_tick_presence nbtEncZero ⟨7, 0, 1, [], [], []⟩).2
      (by decide) (by decide)⟩

/-- C8: the trailing blocking-tick field written for the shield identifier
is the fresh zero local of `Writer.Item` — its wire bytes are exactly
`[0x00]` for every stack, whatever the other fields hold. -/
theorem item_shield_tick_zero (enc : NBTEncoder) (s : ItemStack)
    (h : s.NetworkID = shieldID) :
    itemBytes enc s = itemBodyBytes enc s ++ [0] ∧ varint64Bytes 0 = [0] := by
  have hs0 : ¬(shieldID = (0 : Int)) := by decide
  have htick : varint64Bytes 0 = [0] := by decide
  constructor
  · simp [itemBytes, itemBodyBytes, itemHeadBytes, h, hs0, htick, List.append_assoc]
  · exact htick

/-- Witness for `item_shield_tick_zero` at a concrete shield stack. -/
theorem item_shield_tick_zero_inst :
    itemBytes nbtEncZero ⟨513, 2, 3, [([97], 0)], [[98]], [[99]]⟩ =
      itemBodyBytes nbtEncZero ⟨513, 2, 3, [([97], 0)], [[98]], [[99]]⟩ ++ [0] ∧
      varint64Bytes 0 = [0] :=
  item_shield_tick_zero nbtEncZero ⟨513, 2, 3, [([97], 0)], [[98]], [[99]]⟩ rfl

/-- C5: for a non-empty stack the nested-record marker after the aux word
is the 16-bit value `-1` (bytes `0xFF 0xFF`) followed by the version byte
`1` and the record bytes produced by the external tree-encoder in its
network little-endian variant when the record is present (non-empty), and
the 16-bit value `0` (bytes `0x00 0x00`) with nothing further for that
field when it is absent. -/
theorem item_userdata_marker (enc : NBTEncoder) (s : ItemStack)
    (h : s.NetworkID ≠ 0) :
    (s.NBTData.length ≠ 0 →
      itemBytes enc s = varint32Bytes s.NetworkID ++ varint32Bytes (auxValue s) ++
        int16Bytes (-1) ++ uint8Bytes 1 ++
        enc NBTEncoding.networkLittleEndian s.NBTData ++ itemTailBytes s) ∧
    (s.NBTData.length = 0 →
      itemBytes enc s = varint32Bytes s.NetworkID ++ varint32Bytes (auxValue s) ++
        int16Bytes 0 ++ itemTailBytes s) ∧
    int16Bytes (-1) = [255, 255] ∧ int16Bytes 0 = [0, 0] ∧ uint8Bytes 1 = [1] := by
  refine ⟨fun hn => ?_, fun hn => ?_, by decide, by decide, by decide⟩
  · simp [itemBytes, itemTailBytes, h, hn, List.append_assoc]
  · simp [itemBytes, itemTailBytes, h, hn, List.append_assoc]

/-- Witness for `item_userdata_marker` at a concrete stack with a nested
record present. -/
theorem item_userdata_marker_inst :
    itemBytes nbtEncZero ⟨7, 0, 1, [([107], 0)], [], []⟩ =
      varint32Bytes (ItemStack.NetworkID ⟨7, 0, 1, [([107], 0)], [], []⟩) ++
        varint32Bytes (auxValue ⟨7, 0, 1, [([107], 0)], [], []⟩) ++
        int16Bytes (-1) ++ uint8Bytes 1 ++
        nbtEncZero NBTEncoding.networkLittleEndian
          (ItemStack.NBTData ⟨7, 0, 1, [([107], 0)], [], []⟩) ++
        itemTailBytes ⟨7, 0, 1, [([107], 0)], [], []⟩ :=
  (item_userdata_marker nbtEncZero ⟨7, 0, 1, [([107], 0)], [], []⟩
    (by decide)).1 (by decide)

/-- Helper: a Go `int32` conversion of a value already in signed 32-bit
range is the identity. -/
theorem toInt32_of_small (n : Int) (hlo : -2 ^ 31 ≤ n) (hhi : n < 2 ^ 31) :
    toInt32 n = n := by
  unfold toInt32
  omega

/-- Helper: `Writer.Varint32` on a list length below `2^31` emits the
unsigned LEB128 bytes of twice that length. -/
theorem varint32Bytes_small_nat (n : Nat) (h : n < 2 ^ 31) :
    varint32Bytes (toInt32 n) = varuintBytes (2 * n) := by
  have ht : toInt32 (n : Int) = n := toInt32_of_small n (by omega) (by omega)
  have hn : ¬((n : Int) < 0) := by omega
  have harg : (((n : Int) % 2 ^ 32).toNat * 2) % 2 ^ 32 = 2 * n := by omega
  rw [ht]
  unfold varint32Bytes
  rw [if_neg hn, harg]

/-- C1 counterexample: the two sequence counts of `Writer.Item` are written
with `Varint32` (zig-zag), not as the unsigned LEB128 varint of the element
count: a stack holding one `CanBePlacedOn` string gets the length-prefix
byte `0x02`, where the unsigned LEB128 encoding of the count `1` is `0x01`.
`itemBytesUnsignedLens` is the encoder as the claim words it. -/
theorem item_list_count_cex :
    itemBytes nbtEncZero ⟨1, 0, 1, [], [[97]], []⟩ = [2, 2, 0, 0, 2, 1, 97, 0] ∧
    itemBytesUnsignedLens nbtEncZero ⟨1, 0, 1, [], [[97]], []⟩ =
      [2, 2, 0, 0, 1, 1, 97, 0] ∧
    varuintBytes 1 = [1] ∧
    itemBytes nbtEncZero ⟨1, 0, 1, [], [[97]], []⟩ ≠
      itemBytesUnsignedLens nbtEncZero ⟨1, 0, 1, [], [[97]], []⟩ := by
  refine ⟨by decide, by decide, by decide, by decide⟩

/-- C1 as amended: for every stack with `NetworkID != 0` whose sequence
lengths fit in 31 bits, the encoder writes the `CanBePlacedOn` sequence and
then the `CanBreak` sequence, each prefixed by a signed varint32 length
whose bytes equal the unsigned LEB128 varint encoding of the zig-zag
transform of the element count, i.e. of twice the count. -/
theorem item_list_count_amended (enc : NBTEncoder) (s : ItemStack)
    (h : s.NetworkID ≠ 0)
    (h1 : s.CanBePlacedOn.length < 2 ^ 31) (h2 : s.CanBreak.length < 2 ^ 31) :
    itemBytes enc s = itemHeadBytes enc s ++
      varuintBytes (2 * s.CanBePlacedOn.length) ++
      (s.CanBePlacedOn.map stringBytes).flatten ++
      varuintBytes (2 * s.CanBreak.length) ++
      (s.CanBreak.map stringBytes).flatten ++
      (if s.NetworkID = shieldID then varint64Bytes 0 else []) := by
  rw [← varint32Bytes_small_nat s.CanBePlacedOn.length h1,
    ← varint32Bytes_small_nat s.CanBreak.length h2]
  simp [itemBytes, itemHeadBytes, h, List.append_assoc]

/-- Witness for `item_list_count_amended` at a concrete one-string stack. -/
theorem item_list_count_amended_inst :
    itemBytes nbtEncZero ⟨1, 0, 1, [], [[97]], []⟩ =
      itemHeadBytes nbtEncZero ⟨1, 0, 1, [], [[97]], []⟩ ++
        varuintBytes (2 * List.length (ItemStack.CanBePlacedOn ⟨1, 0, 1, [], [[97]], []⟩)) ++
        (List.map stringBytes (ItemStack.CanBePlacedOn ⟨1, 0, 1, [], [[97]], []⟩)).flatten ++
        varuintBytes (2 * List.length (ItemStack.CanBreak ⟨1, 0, 1, [], [[97]], []⟩)) ++
        (List.map stringBytes (ItemStack.CanBreak ⟨1, 0, 1, [], [[97]], []⟩)).flatten ++
        (if ItemStack.NetworkID ⟨1, 0, 1, [], [[97]], []⟩ = shieldID then
          varint64Bytes 0 else []) :=
  item_list_count_amended nbtEncZero ⟨1, 0, 1, [], [[97]], []⟩
    (by decide) (by decide) (by decide)

/-- C4: `Writer.Varint32` and `Writer.Varint64` implement
zig-zag-then-LEB128 encoding — on every representable value the emitted
bytes are the unsigned LEB128 varint of the zig-zag transform (left shift
by one, complemented when negative) — and in particular `-1` encodes to the
single byte `0x01` and `0` to the single byte `0x00` in both widths. -/
theorem varint_zigzag_leb128 :
    (∀ u : Int, -2 ^ 31 ≤ u → u < 2 ^ 31 →
      varint32Bytes u = varuintBytes (zigzag u)) ∧
    (∀ u : Int, -2 ^ 63 ≤ u → u < 2 ^ 63 →
      varint64Bytes u = varuintBytes (zigzag u)) ∧
    varint32Bytes (-1) = [1] ∧ varint32Bytes 0 = [0] ∧
    varint64Bytes (-1) = [1] ∧ varint64Bytes 0 = [0] := by
  refine ⟨?_, ?_, by decide, by decide, by decide, by decide⟩
  · intro u hlo hhi
    by_cases hu : u < 0
    · have harg : 2 ^ 32 - 1 - ((u % 2 ^ 32).toNat * 2) % 2 ^ 32 = zigzag u := by
        unfold zigzag
        rw [if_pos hu]
        omega
      unfold varint32Bytes
      rw [if_pos hu, harg]
    · have harg : ((u % 2 ^ 32).toNat * 2) % 2 ^ 32 = zigzag u := by
        unfold zigzag
        rw [if_neg hu]
        omega
      unfold varint32Bytes
      rw [if_neg hu, harg]
  · intro u hlo hhi
    by_cases hu : u < 0
    · have harg : 2 ^ 64 - 1 - ((u % 2 ^ 64).toNat * 2) % 2 ^ 64 = zigzag u := by
        unfold zigzag
        rw [if_pos hu]
        omega
      unfold varint64Bytes
      rw [if_pos hu, harg]
    · have harg : ((u % 2 ^ 64).toNat * 2) % 2 ^ 64 = zigzag u := by
        unfold zigzag
        rw [if_neg hu]
        omega
      unfold varint64Bytes
      rw [if_neg hu, harg]

/-- Witness for `varint_zigzag_leb128` at concrete values in both widths. -/
theorem varint_zigzag_leb128_inst :
    varint32Bytes (-3) = varuintBytes (zigzag (-3)) ∧
      varint64Bytes 70000 = varuintBytes (zigzag 70000) :=
  ⟨varint_zigzag_leb128.1 (-3) (by decide) (by decide),
    varint_zigzag_leb128.2.1 70000 (by decide) (by decide)⟩

/-- C6: `Writer.UUID` emits exactly 16 bytes, the two 8-byte halves of the
input swapped and the whole 16-byte sequence reversed; equivalently output
byte `i` is input byte `7 - i` for `i` in `0..7` and input byte `23 - i`
for `i` in `8..15`. -/
theorem uuid_byte_reorder (u : List Nat) (h : u.length = 16) :
    (uuidBytes u).length = 16 ∧
    (∀ i, i < 8 → (uuidBytes u).getD i 0 = u.getD (7 - i) 0) ∧
    (∀ i, 8 ≤ i → i < 16 → (uuidBytes u).getD i 0 = u.getD (23 - i) 0) := by
  rcases u with _|⟨a0,_|⟨a1,_|⟨a2,_|⟨a3,_|⟨a4,_|⟨a5,_|⟨a6,_|⟨a7,_|⟨a8,_|⟨a9,_|⟨a10,_|⟨a11,_|⟨a12,_|⟨a13,_|⟨a14,_|⟨a15,_|⟨a16,rest⟩⟩⟩⟩⟩⟩⟩⟩⟩⟩⟩⟩⟩⟩⟩⟩⟩
  all_goals try (exfalso; simp only [List.length_cons, List.length_nil] at h; omega)
  refine ⟨rfl, fun i hi => ?_, fun i hlo hhi => ?_⟩ <;> interval_cases i <;> rfl

/-- Witness for `uuid_byte_reorder`: a sampled output byte on a concrete
identifier. -/
theorem uuid_byte_reorder_inst :
    (uuidBytes [10, 11, 12, 13, 14, 15, 16, 17,
      20, 21, 22, 23, 24, 25, 26, 27]).getD 3 0 =
      [10, 11, 12, 13, 14, 15, 16, 17,
        20, 21, 22, 23, 24, 25, 26, 27].getD (7 - 3) 0 :=
  (uuid_byte_reorder [10, 11, 12, 13, 14, 15, 16, 17,
    20, 21, 22, 23, 24, 25, 26, 27] rfl).2.1 3 (by decide)

/-- C10: `Writer.UUID` leaves the caller.s 16-byte identifier unchanged:
the appended total exceeds the capacity of the 8-byte slice, so the Go
`append` allocates a fresh backing array and the in-place reverse acts on
the copy; the bytes written are those of `uuidBytes`. -/
theorem uuid_source_preserved (u : List Nat) (h : u.length = 16) :
    (uuidWriteGo u).2 = u ∧ (uuidWriteGo u).1 = uuidBytes u := by
  simp [uuidWriteGo, uuidBytes, h]

/-- Witness for `uuid_source_preserved` at a concrete identifier. -/
theorem uuid_source_preserved_inst :
    (uuidWriteGo [0, 1, 2, 3, 4, 5, 6, 7, 8, 9, 10, 11, 12, 13, 14, 15]).2 =
      [0, 1, 2, 3, 4, 5, 6, 7, 8, 9, 10, 11, 12, 13, 14, 15] ∧
    (uuidWriteGo [0, 1, 2, 3, 4, 5, 6, 7, 8, 9, 10, 11, 12, 13, 14, 15]).1 =
      uuidBytes [0, 1, 2, 3, 4, 5, 6, 7, 8, 9, 10, 11, 12, 13, 14, 15] :=
  uuid_source_preserved [0, 1, 2, 3, 4, 5, 6, 7, 8, 9, 10, 11, 12, 13, 14, 15] rfl

/-- C9: `Writer.UBlockPos` never rejects a negative `y`: it encodes `y` as
the unsigned varint of the two.s-complement reinterpretation `uint32(y)`,
i.e. of `y + 2^32`, while `x` and `z` are encoded as signed varints
unchanged. -/
theorem ublockpos_negative_y (x y z : Int) (hlo : -2 ^ 31 ≤ y) (hy : y < 0) :
    uBlockPosBytes ⟨x, y, z⟩ =
      varint32Bytes x ++ varuintBytes (y + 2 ^ 32).toNat ++ varint32Bytes z := by
  have harg : ((y % 2 ^ 32).toNat) = (y + 2 ^ 32).toNat := by omega
  simp only [uBlockPosBytes]
  rw [harg]

/-- Witness for `ublockpos_negative_y` at the position `(1, -1, 2)`. -/
theorem ublockpos_negative_y_inst :
    uBlockPosBytes ⟨1, -1, 2⟩ =
      varint32Bytes 1 ++ varuintBytes ((-1 : Int) + 2 ^ 32).toNat ++
        varint32Bytes 2 :=
  ublockpos_negative_y 1 (-1) 2 (by decide) (by decide)

/-- Helper: once the `Writer.EntityMetadata` loop meets an entry whose
dynamic type is outside the known nine, the whole fold aborts with an
error, whatever bytes were accumulated before. -/
theorem entityFold_error (enc : NBTEncoder) (k : Nat) (t : List Nat) :
    ∀ entries : List (Nat × EntityDataValue),
      (k, EntityDataValue.unknownV t) ∈ entries →
      ∀ init : List Nat,
        ∃ msg, entries.foldlM (entityFoldStep enc) init = Except.error msg := by
  intro entries
  induction entries with
  | nil => exact fun h => absurd h (List.not_mem_nil _)
  | cons kv rest ih =>
    intro h init
    rcases List.mem_cons.mp h with heq | hmem
    · refine ⟨t, ?_⟩
      rw [List.foldlM_cons, ← heq]
      rfl
    · rcases hstep : entityFoldStep enc init kv with e | acc2
      · exact ⟨e, by rw [List.foldlM_cons, hstep]; rfl⟩
      · obtain ⟨m, hm⟩ := ih hmem acc2
        exact ⟨m, by rw [List.foldlM_cons, hstep]; exact hm⟩

/-- C7: `Writer.EntityMetadata` on a map containing at least one value
whose dynamic type is outside the nine known variants fails loudly with an
error — it neither skips the entry nor produces an output byte string. -/
theorem metadata_unknown_variant_errors (enc : NBTEncoder)
    (entries : List (Nat × EntityDataValue)) (k : Nat) (t : List Nat)
    (h : (k, EntityDataValue.unknownV t) ∈ entries) :
    ∃ msg, entityMetadataBytes enc entries = Except.error msg :=
  entityFold_error enc k t entries h _

/-- Witness for `metadata_unknown_variant_errors` on a concrete two-entry
map whose second value has an unknown dynamic type. -/
theorem metadata_unknown_variant_errors_inst :
    ∃ msg, entityMetadataBytes nbtEncZero
      [(2, EntityDataValue.byteV 5), (3, EntityDataValue.unknownV [120])] =
      Except.error msg :=
  metadata_unknown_variant_errors nbtEncZero
    [(2, EntityDataValue.byteV 5), (3, EntityDataValue.unknownV [120])] 3 [120]
    (List.mem_cons_of_mem _ (List.mem_singleton.mpr rfl))

end GT408
